import Mathlib

/-!
Verification of the SGPE-python teaching repository (econometrics notebooks and
Stata scripts) against its natural-language specification.

The Python/NumPy code is shallowly embedded over `ℚ`: NumPy arrays become
functions `Fin n → ℚ`, NumPy 2-d arrays become Mathlib matrices, and the
fallible `np.linalg.inv` becomes an `Except`-valued function that fails with
`LinAlgError.singular` exactly on a vanishing determinant, mirroring the
`LinAlgError("Singular matrix")` exception raised by NumPy.  Mathlib's
`Matrix.det` does not evaluate by kernel reduction, so the embedding uses an
executable cofactor-expansion determinant `detExec`, proved equal to
`Matrix.det`, and an executable adjugate `adjExec`, proved equal to
`Matrix.adjugate`.  Stata's `regress … if cond` is embedded by zeroing the
rows outside the sample, which leaves the normal equations of the restricted
sample unchanged; `cap drop` is embedded by its documented semantics of
suppressing the error of the underlying `drop`.
-/

open Matrix

namespace SGPE

/-- The error raised by `np.linalg.inv` on a singular input
(`numpy.linalg.LinAlgError: Singular matrix`). -/
inductive LinAlgError
  | singular
deriving DecidableEq

/-- Index embedding that skips position `j`: sends `k` to `k` for `k < j` and
to `k + 1` otherwise.  Used to delete column `j` when forming a minor. -/
def dropIdx {n : ℕ} (j : Fin (n + 1)) : Fin n → Fin (n + 1) := fun k =>
  if _ : (k : ℕ) < (j : ℕ) then ⟨(k : ℕ), by omega⟩ else ⟨(k : ℕ) + 1, by omega⟩

/-- Executable determinant by cofactor expansion along the first row. -/
def detExec : {n : ℕ} → Matrix (Fin n) (Fin n) ℚ → ℚ
  | 0, _ => 1
  | n + 1, A =>
      ∑ j : Fin (n + 1), (-1) ^ (j : ℕ) * A 0 j * detExec (A.submatrix Fin.succ (dropIdx j))

/-- Executable adjugate: entry `(i, j)` is the determinant of the matrix
obtained by replacing row `j` with the `i`-th standard basis vector. -/
def adjExec {n : ℕ} (A : Matrix (Fin n) (Fin n) ℚ) : Matrix (Fin n) (Fin n) ℚ :=
  Matrix.of fun i j => detExec (A.updateRow j (Pi.single i 1))

/-- Model of `np.linalg.inv`: raises `LinAlgError` on a singular matrix and
otherwise returns the inverse, computed as `det⁻¹ • adjugate`. -/
def np_linalg_inv {k : ℕ} (A : Matrix (Fin k) (Fin k) ℚ) :
    Except LinAlgError (Matrix (Fin k) (Fin k) ℚ) :=
  if detExec A = 0 then .error .singular else .ok ((detExec A)⁻¹ • adjExec A)

/-- Design matrix `np.column_stack((np.ones(len(X)), X))` from the `ols`
function in the Libraries notebook: the regressor with a prepended column of
ones. -/
def column_stack_ones {n : ℕ} (x : Fin n → ℚ) : Matrix (Fin n) (Fin 2) ℚ :=
  Matrix.of fun i j => if (j : ℕ) = 0 then 1 else x i

/-- The `ols` function of the Libraries notebook
(`β = np.linalg.inv(X.T.dot(X)).dot(X.T).dot(y)` after prepending a column of
ones to the regressor `df['X']`); the dataframe's two columns are passed as
`x` and `y`. -/
def ols {n : ℕ} (x y : Fin n → ℚ) : Except LinAlgError (Fin 2 → ℚ) :=
  (np_linalg_inv ((column_stack_ones x)ᵀ * column_stack_ones x)).map
    fun M => (M * (column_stack_ones x)ᵀ) *ᵥ y

/-- The four-column design matrix of the `beta_ols` cell of the Libraries
notebook: `np.concatenate((np.ones((N, 1)), X), axis=1)` with
`X = data_clean[["educ", "exper", "expersq"]]`. -/
def mroz_design {n : ℕ} (educ exper expersq : Fin n → ℚ) : Matrix (Fin n) (Fin 4) ℚ :=
  Matrix.of fun i j =>
    if (j : ℕ) = 0 then 1
    else if (j : ℕ) = 1 then educ i
    else if (j : ℕ) = 2 then exper i
    else expersq i

/-- The `beta_ols` computation of the Libraries notebook:
`XtX_inv = np.linalg.inv(X.T @ X)`, `Xty = X.T @ y`,
`beta_ols = XtX_inv @ Xty`. -/
def beta_ols {n : ℕ} (educ exper expersq y : Fin n → ℚ) :
    Except LinAlgError (Fin 4 → ℚ) := do
  let X := mroz_design educ exper expersq
  let XtX_inv ← np_linalg_inv (Xᵀ * X)
  let Xty := Xᵀ *ᵥ y
  .ok (XtX_inv *ᵥ Xty)

/-- The closed-form formula as written in the specification:
`np.linalg.inv(X.T @ X) @ (X.T @ y)`, for an arbitrary design matrix `X`. -/
def inv_XtX_mul_Xty {n k : ℕ} (X : Matrix (Fin n) (Fin k) ℚ) (y : Fin n → ℚ) :
    Except LinAlgError (Fin k → ℚ) :=
  (np_linalg_inv (Xᵀ * X)).map fun M => M *ᵥ (Xᵀ *ᵥ y)

/-- Concrete regressor column used for evaluation: the values `0, 1`. -/
def xW : Fin 2 → ℚ := fun i => (i : ℚ)

/-- Concrete target column used for evaluation. -/
def yW : Fin 2 → ℚ := fun i => 2 * (i : ℚ) + 1

/-- Model of `np.mean` of a vector: the sum of the entries divided by their
number. -/
def np_mean {n : ℕ} (v : Fin n → ℚ) : ℚ := (∑ i, v i) / n

/-- The locally defined `mean_squared_error` of the ML notebook:
`np.mean((y_true - y_pred)**2)`. -/
def mean_squared_error {n : ℕ} (y_true y_pred : Fin n → ℚ) : ℚ :=
  np_mean fun i => (y_true i - y_pred i) ^ 2

/-- The grid of candidate alpha values in `param_grid_lasso`:
`[0.001, 0.01, 0.1, 1, 10]`. -/
def param_grid_lasso : List ℚ := [0.001, 0.01, 0.1, 1, 10]

/-- The grid of candidate max-depth values in `param_grid_rf`:
`[None, 10, 20, 30]`, with `None` becoming `none`. -/
def param_grid_rf : List (Option ℕ) := [none, some 10, some 20, some 30]

/-- The configuration handed to sklearn's `GridSearchCV` constructor; the
search itself runs inside the external library. -/
structure GridSearchCV (α : Type) where
  estimator : String
  param_grid : List α
  cv : ℕ
  scoring : String

/-- Configuration `GridSearchCV(pipeline_lasso, param_grid_lasso, cv=5,
scoring='neg_mean_squared_error')`. -/
def grid_search_lasso : GridSearchCV ℚ :=
  { estimator := "pipeline_lasso", param_grid := param_grid_lasso, cv := 5,
    scoring := "neg_mean_squared_error" }

/-- Configuration `GridSearchCV(pipeline_rf, param_grid_rf, cv=5,
scoring='neg_mean_squared_error')`. -/
def grid_search_rf : GridSearchCV (Option ℕ) :=
  { estimator := "pipeline_rf", param_grid := param_grid_rf, cv := 5,
    scoring := "neg_mean_squared_error" }

/-- The evaluation block of the ML notebook: the four reported MSEs
(`mse_train_lasso`, `mse_test_lasso`, `mse_train_rf`, `mse_test_rf`), each
computed by the locally defined `mean_squared_error` from the actual targets
and the library-produced predictions on the train and test splits. -/
def evaluateModels {ntr nte : ℕ} (y_train : Fin ntr → ℚ) (y_test : Fin nte → ℚ)
    (y_pred_train_lasso : Fin ntr → ℚ) (y_pred_test_lasso : Fin nte → ℚ)
    (y_pred_train_rf : Fin ntr → ℚ) (y_pred_test_rf : Fin nte → ℚ) :
    ℚ × ℚ × ℚ × ℚ :=
  (mean_squared_error y_train y_pred_train_lasso,
   mean_squared_error y_test y_pred_test_lasso,
   mean_squared_error y_train y_pred_train_rf,
   mean_squared_error y_test y_pred_test_rf)

/-- Model of `generate_data(N)` of the Libraries notebook.  The two normal
draws `X = np.random.normal(0, 1, N)` and `u = np.random.normal(0, 2, N)` are
supplied as explicit inputs `x` and `u`; the function returns the dataframe's
two columns `(X, y)` with `y = 3 + 2 * X + u`. -/
def generate_data (N : ℕ) (x u : Fin N → ℚ) : (Fin N → ℚ) × (Fin N → ℚ) :=
  (x, fun i => 3 + 2 * x i + u i)

/-- The list `sample_sizes = [5, 30, 100, 500]` from the Monte Carlo cell. -/
def sample_sizes : List ℕ := [5, 30, 100, 500]

/-- The iteration count `n_simulations = 1_000` from the Monte Carlo cell. -/
def n_simulations : ℕ := 1000

/-- The inner Monte Carlo loop after `t` iterations: each iteration draws a
fresh dataset with `generate_data`, runs `ols` on it, and appends the
intercept and slope estimates to the two accumulator lists
(`beta_0_estimates`, `beta_1_estimates`).  The draws of iteration `s` are
`draws s`.  A `LinAlgError` raised by `ols` propagates: the loop body has no
handler. -/
def mcIter (N : ℕ) (draws : ℕ → (Fin N → ℚ) × (Fin N → ℚ)) :
    ℕ → Except LinAlgError (List ℚ × List ℚ)
  | 0 => .ok ([], [])
  | t + 1 => do
      let (b0, b1) ← mcIter N draws t
      let df := generate_data N (draws t).1 (draws t).2
      let beta_hat ← ols df.1 df.2
      .ok (b0 ++ [beta_hat 0], b1 ++ [beta_hat 1])

/-- The full inner loop, `for _ in range(n_simulations)`. -/
def mcLoop (N : ℕ) (draws : ℕ → (Fin N → ℚ) × (Fin N → ℚ)) :
    Except LinAlgError (List ℚ × List ℚ) :=
  mcIter N draws n_simulations

/-- The outer loop `for idx, N in enumerate(sample_sizes)`: the `results`
dictionary, as the association list pairing each sample size `N` with the
estimate lists produced by the inner loop at `N`. -/
def mcResults (draws : (N : ℕ) → ℕ → (Fin N → ℚ) × (Fin N → ℚ)) :
    List (ℕ × Except LinAlgError (List ℚ × List ℚ)) :=
  sample_sizes.map fun N => (N, mcLoop N (draws N))

/-- Concrete draw family for the Monte Carlo evaluation: regressor values
`0, 1, …, N - 1` and zero noise, at every iteration. -/
def mcDrawsW : (N : ℕ) → ℕ → (Fin N → ℚ) × (Fin N → ℚ) :=
  fun _ _ => (fun i => (i : ℚ), fun _ => 0)

/-- Constant regressor column: makes the `ols` design matrix collinear with
the prepended column of ones, so `X'X` is singular. -/
def xSingW : Fin 2 → ℚ := fun _ => 1

/-- Concrete four-row education column for evaluation. -/
def educW4 : Fin 4 → ℚ := fun i => if (i : ℕ) = 0 then 1 else if (i : ℕ) = 1 then 2
  else if (i : ℕ) = 2 then 4 else 8

/-- Concrete four-row experience column for evaluation. -/
def experW4 : Fin 4 → ℚ := fun i => (i : ℚ) + 1

/-- Concrete four-row squared-experience column for evaluation. -/
def expersqW4 : Fin 4 → ℚ := fun i => ((i : ℚ) + 1) ^ 2

/-- Concrete all-zero one-row column, producing a singular `X'X`. -/
def zeroW1 : Fin 1 → ℚ := fun _ => 0

/-- A pandas dataframe with `n` rows: an ordered association list of column
names to columns.  Selection returns a new dataframe; nothing mutates. -/
def DataFrame (n : ℕ) : Type := List (String × (Fin n → ℚ))

/-- Column selection `data[cols]`, keeping the requested columns in the
requested order. -/
def dfSelect {n : ℕ} (df : DataFrame n) (cols : List String) : DataFrame n :=
  cols.filterMap fun c => (df.find? fun p => p.1 == c).map fun p => (c, p.2)

/-- Single-column extraction `data[c]`. -/
def dfGetCol {n : ℕ} (df : DataFrame n) (c : String) : Option (Fin n → ℚ) :=
  (df.find? fun p => p.1 == c).map Prod.snd

/-- The feature list `selected_features` from the ML notebook. -/
def selected_features : List String :=
  ["year", "age", "rooms", "area", "land", "baths", "dist"]

/-- The notebook session's bindings that the feature-selection and split cells
touch: the loaded dataframe `data` and the derived values `X`, `y`, and the
train/test split (as row-index lists, train then test). -/
structure SessionState (n : ℕ) where
  data : DataFrame n
  X : Option (DataFrame n)
  y : Option (Fin n → ℚ)
  split : Option (List (Fin n) × List (Fin n))

/-- The cell `X = data[selected_features]; y = data['lprice']`. -/
def selectCell {n : ℕ} (s : SessionState n) : SessionState n :=
  { s with
    X := some (dfSelect s.data selected_features)
    y := dfGetCol s.data "lprice" }

/-- The `test_size=0.2` argument of `train_test_split`. -/
def test_size : ℚ := 0.2

/-- The number of test rows sklearn derives from `test_size`:
`ceil(test_size * n)`. -/
def n_test (n : ℕ) : ℕ := ⌈test_size * n⌉₊

/-- The cell `train_test_split(X, y, test_size=0.2, random_state=123)`.  The
pseudo-random shuffle driven by `random_state=123` is supplied as the
permuted row-index list `shuffled`; the split stores the train indices (the
rows after the first `n_test n`) and the test indices. -/
def splitCell {n : ℕ} (shuffled : List (Fin n)) (s : SessionState n) : SessionState n :=
  { s with split := some (shuffled.drop (n_test n), shuffled.take (n_test n)) }

/-- The error a Stata `drop` raises when the variable does not exist
(`variable … not found`). -/
inductive StataError
  | varNotFound (v : String)
deriving DecidableEq

/-- Stata `drop v` on a dataset whose variables are `vars`: removes the
variable, or fails if it is absent. -/
def dropVar (v : String) (vars : List String) : Except StataError (List String) :=
  if v ∈ vars then .ok (vars.erase v) else .error (.varNotFound v)

/-- Stata's `capture` (`cap`) command prefix: runs the command and suppresses
any error it raises, leaving the dataset unchanged on failure. -/
def capture (r : Except StataError (List String)) (vars : List String) :
    Except StataError (List String) :=
  match r with
  | .ok vs => .ok vs
  | .error _ => .ok vars

/-- The statement `cap drop v`, as written throughout the Stata scripts. -/
def cap_drop (v : String) (vars : List String) : Except StataError (List String) :=
  capture (dropVar v vars) vars

/-- The statement forms, relevant to error handling, that occur in the
repository's scripts and notebooks: `cap drop v` statements and plain
library/estimation calls with no handler around them. -/
inductive RepoStatement
  | capDrop (v : String)
  | libraryCall (desc : String)
deriving DecidableEq

/-- Every `cap drop` statement of the three Stata do-files, plus
representative unguarded library calls; no script or notebook defines an
error type, raises, or wraps a call in a handler other than these `cap`s. -/
def repo_statements : List RepoStatement :=
  [.capDrop "yhat_oos", .capDrop "yhat_i", .capDrop "ehat_oos",
   .capDrop "foldvar", .capDrop "yhat_4f_oos", .capDrop "ehat_4f_oos",
   .capDrop "yhat_1_oos", .capDrop "yhat_2_oos", .capDrop "yhat_3_oos",
   .capDrop "yhat_4_oos", .capDrop "yhat", .capDrop "ehat",
   .libraryCall "webuse mroz", .libraryCall "regress", .libraryCall "predict",
   .libraryCall "lasso2", .libraryCall "cvlasso", .libraryCall "pd.read_stata",
   .libraryCall "np.linalg.inv", .libraryCall "GridSearchCV.fit",
   .libraryCall "LassoCV.fit", .libraryCall "model.predict"]

/-- Whether a repository statement defines a custom error type (none does). -/
def definesCustomErrorType : RepoStatement → Bool := fun _ => false

/-- Whether a repository statement raises its own error (none does). -/
def raisesOwnError : RepoStatement → Bool := fun _ => false

/-- Whether a repository statement suppresses an error from the underlying
command: exactly the `cap drop` statements do. -/
def suppressesLibraryError : RepoStatement → Bool
  | .capDrop _ => true
  | .libraryCall _ => false

/-- The sklearn/NumPy model classes that appear in the repository. -/
inductive SklearnModel
  | lasso | randomForest | ridge | lassoCV | ridgeCV | olsByHand
deriving DecidableEq

/-- The code cells of the ML notebook (`04-03 - ML.ipynb`), in file order,
each summarised by the operation it performs; the final `exerciseCell`
carries the class imported by its only import statement and its remaining
code lines verbatim. -/
inductive MLCell
  | importLibs (libs : List String)
  | loadData (url : String)
  | selectFeatures (features : List String) (target : String)
  | trainTestSplit (ts : ℚ) (random_state : ℕ)
  | buildPreprocessor (numeric categorical : List String)
  | buildPipelines (models : List SklearnModel)
  | defineParamGrids
  | gridSearchFit (models : List SklearnModel) (cv : ℕ)
  | setBestParams
  | fitModels (models : List SklearnModel)
  | evaluateAndPlot (models : List SklearnModel)
  | featureImportances (model : SklearnModel)
  | inspectCoefficients (model : SklearnModel)
  | exerciseCell (imported : SklearnModel) (code : List String)
deriving DecidableEq

/-- The ML notebook's code cells, transcribed in order from the source. -/
def ml_notebook : List MLCell :=
  [.importLibs ["numpy", "pandas", "matplotlib.pyplot", "sklearn", "sys"],
   .loadData "http://fmwww.bc.edu/ec-p/data/wooldridge/kielmc.dta",
   .selectFeatures ["year", "age", "rooms", "area", "land", "baths", "dist"] "lprice",
   .trainTestSplit 0.2 123,
   .buildPreprocessor ["age", "area", "land", "dist", "rooms"] ["baths"],
   .buildPipelines [.lasso, .randomForest],
   .defineParamGrids,
   .gridSearchFit [.lasso, .randomForest] 5,
   .setBestParams,
   .fitModels [.lasso, .randomForest],
   .evaluateAndPlot [.lasso, .randomForest],
   .featureImportances .randomForest,
   .inspectCoefficients .lasso,
   .exerciseCell .ridge ["# Your code here"]]

/-- The models a cell constructs, tunes, fits or evaluates.  The exercise
cell constructs nothing: its body is only an import and a comment. -/
def modelsUsed : MLCell → List SklearnModel
  | .buildPipelines ms => ms
  | .gridSearchFit ms _ => ms
  | .fitModels ms => ms
  | .evaluateAndPlot ms => ms
  | _ => []

/-- Models constructed anywhere in the repository: the ML notebook's
pipelines, the Libraries notebook's hand-rolled OLS, and the `LassoCV`
constructed in the Python block of `lab4_task4.do` (its `RidgeCV` line is
commented out). -/
def repo_constructed_models : List SklearnModel :=
  (ml_notebook.flatMap modelsUsed) ++ [.olsByHand, .lassoCV]

/-- Stata sample restriction `if cond`, applied to the regressor matrix:
rows outside the sample are zeroed, so they contribute nothing to `X'X` or
`X'y` — the normal equations of `regress … if cond` are exactly those of the
restricted sample. -/
def selectSample {n p : ℕ} (s : Fin n → Bool) (X : Matrix (Fin n) (Fin p) ℚ) :
    Matrix (Fin n) (Fin p) ℚ :=
  Matrix.of fun i k => if s i then X i k else 0

/-- Sample restriction applied to the dependent variable. -/
def selectVec {n : ℕ} (s : Fin n → Bool) (y : Fin n → ℚ) : Fin n → ℚ :=
  fun i => if s i then y i else 0

/-- Model of `regress y Xterms if cond`: OLS on the restricted sample by the
normal equations, `(X_S'X_S)⁻¹ (X_S'y_S)`, failing if `X_S'X_S` is
singular. -/
def regressFit {n p : ℕ} (s : Fin n → Bool) (y : Fin n → ℚ)
    (X : Matrix (Fin n) (Fin p) ℚ) : Except LinAlgError (Fin p → ℚ) :=
  (np_linalg_inv ((selectSample s X)ᵀ * selectSample s X)).map
    fun M => M *ᵥ ((selectSample s X)ᵀ *ᵥ selectVec s y)

/-- Model of `predict yhat_i if _n==i, xb`: the linear prediction `x_i · b`
at row `i` from coefficients `b`. -/
def predictRow {n p : ℕ} (X : Matrix (Fin n) (Fin p) ℚ) (i : Fin n)
    (b : Fin p → ℚ) : ℚ :=
  ∑ k, X i k * b k

/-- One leave-one-out estimation: `regress y Xterms if _n~=i`, fit on every
observation except `i`. -/
def looFit {n p : ℕ} (y : Fin n → ℚ) (X : Matrix (Fin n) (Fin p) ℚ)
    (i : Fin n) : Except LinAlgError (Fin p → ℚ) :=
  regressFit (fun j => (j : ℕ) != (i : ℕ)) y X

/-- The leave-one-out prediction for observation `i`: fit without row `i`,
then predict at row `i`. -/
def looPredict {n p : ℕ} (y : Fin n → ℚ) (X : Matrix (Fin n) (Fin p) ℚ)
    (i : Fin n) : Except LinAlgError ℚ :=
  (looFit y X i).map (predictRow X i)

/-- The LOO loop `forvalues i=1/$nobs { … }`: starting from `yhat_oos`
generated as all-missing, iteration `i` stores the out-of-sample prediction
for observation `i` (missing if the regression failed). -/
def looLoop {n p : ℕ} (y : Fin n → ℚ) (X : Matrix (Fin n) (Fin p) ℚ) :
    Fin n → Option ℚ :=
  (List.finRange n).foldl
    (fun yh i => Function.update yh i (looPredict y X i).toOption)
    fun _ => none

/-- From `lab4_task1.do`: the collected out-of-sample predictions `yhat_oos`
after the LOO loop, for the regression `reg lwage educ exper expersq`. -/
def yhat_oos {n : ℕ} (lwage educ exper expersq : Fin n → ℚ) : Fin n → Option ℚ :=
  looLoop lwage (mroz_design educ exper expersq)

/-- From `lab4_task1.do`: `gen ehat_oos = lwage - yhat_oos`. -/
def ehat_oos {n : ℕ} (lwage educ exper expersq : Fin n → ℚ) : Fin n → Option ℚ :=
  fun i => (yhat_oos lwage educ exper expersq i).map fun yh => lwage i - yh

/-- Concrete five-row target column for evaluation. -/
def lwageW5 : Fin 5 → ℚ := fun i => (i : ℚ)

/-- Concrete five-row education column for evaluation. -/
def educW5 : Fin 5 → ℚ := fun i =>
  if (i : ℕ) = 0 then 1 else if (i : ℕ) = 1 then 2
  else if (i : ℕ) = 2 then 4 else if (i : ℕ) = 3 then 8 else 16

/-- Concrete five-row experience column for evaluation. -/
def experW5 : Fin 5 → ℚ := fun i => (i : ℚ) + 1

/-- Concrete five-row squared-experience column for evaluation. -/
def expersqW5 : Fin 5 → ℚ := fun i => ((i : ℚ) + 1) ^ 2

/-- From `lab4_task2.do`: the LOO predictions `yhat_k_oos` for model `k`,
each produced by `regress lrprice $model_k if _n~=i` followed by
`predict yhat_i if _n==i, xb` — the fitting target is `lrprice`, and `Xk` is
model `k`'s polynomial regressor matrix. -/
def yhat_k_oos {n p : ℕ} (lrprice : Fin n → ℚ) (Xk : Matrix (Fin n) (Fin p) ℚ) :
    Fin n → Option ℚ :=
  looLoop lrprice Xk

/-- From `lab4_task2.do`: `gen ehat_k_oos = lprice - yhat_k_oos` — the error
subtracts the `lrprice`-based prediction from the different variable
`lprice`. -/
def ehat_k_oos {n p : ℕ} (lprice lrprice : Fin n → ℚ)
    (Xk : Matrix (Fin n) (Fin p) ℚ) : Fin n → Option ℚ :=
  fun i => (yhat_k_oos lrprice Xk i).map fun yh => lprice i - yh

/-- Concrete three-row column that is identically 0 (playing `lprice`). -/
def lpriceC : Fin 3 → ℚ := fun _ => 0

/-- Concrete three-row column that is identically 1 (playing `lrprice`). -/
def lrpriceC : Fin 3 → ℚ := fun _ => 1

/-- Concrete intercept-only regressor matrix on three rows. -/
def XC : Matrix (Fin 3) (Fin 1) ℚ := Matrix.of fun _ _ => 1

theorem dropIdx_eq_succAbove {n : ℕ} (j : Fin (n + 1)) (k : Fin n) :
    dropIdx j k = j.succAbove k := by
  rw [Fin.succAbove, dropIdx]
  by_cases h : (k : ℕ) < (j : ℕ)
  · rw [dif_pos h, if_pos (show k.castSucc < j by simpa [Fin.lt_def] using h)]
    exact Fin.ext rfl
  · rw [dif_neg h, if_neg (show ¬k.castSucc < j by simpa [Fin.lt_def] using h)]
    exact Fin.ext rfl

theorem detExec_eq_det : ∀ {n : ℕ} (A : Matrix (Fin n) (Fin n) ℚ), detExec A = A.det
  | 0, A => by simp [detExec, Matrix.det_fin_zero]
  | n + 1, A => by
      rw [Matrix.det_succ_row_zero, detExec]
      refine Finset.sum_congr rfl fun j _ => ?_
      have hsub : A.submatrix Fin.succ (dropIdx j) = A.submatrix Fin.succ j.succAbove := by
        ext a b
        rw [Matrix.submatrix_apply, Matrix.submatrix_apply, dropIdx_eq_succAbove]
      rw [hsub, detExec_eq_det]

theorem adjExec_eq_adjugate {n : ℕ} (A : Matrix (Fin n) (Fin n) ℚ) :
    adjExec A = A.adjugate := by
  ext i j
  rw [Matrix.adjugate_apply]
  exact detExec_eq_det _

theorem np_linalg_inv_of_det_ne {k : ℕ} (A : Matrix (Fin k) (Fin k) ℚ)
    (h : detExec A ≠ 0) : np_linalg_inv A = .ok A⁻¹ := by
  rw [np_linalg_inv, if_neg h, Matrix.inv_def, Ring.inverse_eq_inv, adjExec_eq_adjugate,
    detExec_eq_det]

theorem np_linalg_inv_of_det_eq {k : ℕ} (A : Matrix (Fin k) (Fin k) ℚ)
    (h : detExec A = 0) : np_linalg_inv A = .error .singular := by
  rw [np_linalg_inv, if_pos h]

theorem ols_eq_formula {n : ℕ} (x y : Fin n → ℚ) :
    ols x y = inv_XtX_mul_Xty (column_stack_ones x) y := by
  rw [ols, inv_XtX_mul_Xty]
  cases np_linalg_inv ((column_stack_ones x)ᵀ * column_stack_ones x) with
  | error e => rfl
  | ok M =>
      exact congrArg Except.ok (Matrix.mulVec_mulVec y M (column_stack_ones x)ᵀ).symm

theorem beta_ols_eq_formula {n : ℕ} (educ exper expersq y : Fin n → ℚ) :
    beta_ols educ exper expersq y =
      inv_XtX_mul_Xty (mroz_design educ exper expersq) y := by
  rw [beta_ols, inv_XtX_mul_Xty]
  cases np_linalg_inv ((mroz_design educ exper expersq)ᵀ * mroz_design educ exper expersq) with
  | error e => rfl
  | ok M => rfl

theorem inv_XtX_mul_Xty_of_det_ne {n k : ℕ} (X : Matrix (Fin n) (Fin k) ℚ)
    (y : Fin n → ℚ) (h : detExec (Xᵀ * X) ≠ 0) :
    inv_XtX_mul_Xty X y = .ok ((Xᵀ * X)⁻¹ *ᵥ (Xᵀ *ᵥ y)) := by
  rw [inv_XtX_mul_Xty, np_linalg_inv_of_det_ne _ h]
  rfl

theorem inv_XtX_mul_Xty_of_det_eq {n k : ℕ} (X : Matrix (Fin n) (Fin k) ℚ)
    (y : Fin n → ℚ) (h : detExec (Xᵀ * X) = 0) :
    inv_XtX_mul_Xty X y = .error .singular := by
  rw [inv_XtX_mul_Xty, np_linalg_inv_of_det_eq _ h]
  rfl

theorem inv_XtX_mul_Xty_error_iff {n k : ℕ} (X : Matrix (Fin n) (Fin k) ℚ)
    (y : Fin n → ℚ) :
    inv_XtX_mul_Xty X y = .error .singular ↔ detExec (Xᵀ * X) = 0 := by
  by_cases h : detExec (Xᵀ * X) = 0
  · simp [inv_XtX_mul_Xty_of_det_eq X y h, h]
  · simp [inv_XtX_mul_Xty_of_det_ne X y h, h]

/-- C1: the hand-rolled OLS estimators compute exactly the closed-form matrix
formula `(X'X)⁻¹ X'y`.  The `ols` function (which parenthesises the matrix
products as `inv(X'X) @ X' @ y`) and the `beta_ols` computation (parenthesised
as `inv(X'X) @ (X'y)`) both equal the spec's single-expression formula
`np.linalg.inv(X.T @ X) @ (X.T @ y)` on their respective design matrices; and
whenever `X'X` is nonsingular, `ols` returns exactly the coefficient vector
`(X'X)⁻¹ *ᵥ (X' *ᵥ y)` stated with Mathlib's matrix inverse. -/
theorem ols_computes_closed_form {n : ℕ} (x y educ exper expersq w : Fin n → ℚ) :
    ols x y = inv_XtX_mul_Xty (column_stack_ones x) y ∧
    beta_ols educ exper expersq w =
      inv_XtX_mul_Xty (mroz_design educ exper expersq) w ∧
    (detExec ((column_stack_ones x)ᵀ * column_stack_ones x) ≠ 0 →
      ols x y = .ok (((column_stack_ones x)ᵀ * column_stack_ones x)⁻¹ *ᵥ
        ((column_stack_ones x)ᵀ *ᵥ y))) := by
  refine ⟨ols_eq_formula x y, beta_ols_eq_formula educ exper expersq w, fun h => ?_⟩
  rw [ols_eq_formula x y, inv_XtX_mul_Xty_of_det_ne _ y h]

theorem ols_computes_closed_form_witness :
    detExec ((column_stack_ones xW)ᵀ * column_stack_ones xW) ≠ 0 ∧
    ols xW yW = .ok (((column_stack_ones xW)ᵀ * column_stack_ones xW)⁻¹ *ᵥ
      ((column_stack_ones xW)ᵀ *ᵥ yW)) := by
  have hd : detExec ((column_stack_ones xW)ᵀ * column_stack_ones xW) ≠ 0 := by
    norm_num [detExec, dropIdx, column_stack_ones, xW, Matrix.mul_apply,
      Matrix.transpose_apply, Fin.sum_univ_succ, Matrix.submatrix]
  exact ⟨hd, (ols_computes_closed_form xW yW xW xW xW xW).2.2 hd⟩

/-- C3: the model-comparison exercise configures `GridSearchCV` with `cv = 5`
and scoring `neg_mean_squared_error` over the stated alpha and max-depth
grids, and every reported MSE equals the mean of the squared differences of
the true and predicted vectors, as computed by the locally defined
`mean_squared_error`, on both splits for both models. -/
theorem grid_search_config_and_reported_mse {ntr nte : ℕ}
    (y_train : Fin ntr → ℚ) (y_test : Fin nte → ℚ)
    (p_train_lasso : Fin ntr → ℚ) (p_test_lasso : Fin nte → ℚ)
    (p_train_rf : Fin ntr → ℚ) (p_test_rf : Fin nte → ℚ) :
    grid_search_lasso.cv = 5 ∧ grid_search_rf.cv = 5 ∧
    grid_search_lasso.scoring = "neg_mean_squared_error" ∧
    grid_search_rf.scoring = "neg_mean_squared_error" ∧
    grid_search_lasso.param_grid = [1/1000, 1/100, 1/10, 1, 10] ∧
    grid_search_rf.param_grid = [none, some 10, some 20, some 30] ∧
    (∀ {m : ℕ} (a b : Fin m → ℚ),
      mean_squared_error a b = (∑ i, (a i - b i) ^ 2) / m) ∧
    evaluateModels y_train y_test p_train_lasso p_test_lasso p_train_rf p_test_rf =
      (mean_squared_error y_train p_train_lasso,
       mean_squared_error y_test p_test_lasso,
       mean_squared_error y_train p_train_rf,
       mean_squared_error y_test p_test_rf) := by
  refine ⟨rfl, rfl, rfl, rfl, ?_, rfl, fun a b => rfl, rfl⟩
  show param_grid_lasso = _
  rw [param_grid_lasso]
  norm_num

/-- C10: the locally defined `mean_squared_error` is symmetric in its two
arguments, non-negative, and zero on identical vectors. -/
theorem mean_squared_error_symm_nonneg_diag {n : ℕ} (a b : Fin n → ℚ) :
    mean_squared_error a b = mean_squared_error b a ∧
    0 ≤ mean_squared_error a b ∧
    mean_squared_error a a = 0 := by
  refine ⟨?_, ?_, ?_⟩
  · rw [mean_squared_error, mean_squared_error, np_mean, np_mean]
    congr 1
    exact Finset.sum_congr rfl fun i _ => by rw [← neg_sub (b i) (a i), neg_sq]
  · rw [mean_squared_error, np_mean]
    exact div_nonneg (Finset.sum_nonneg fun i _ => sq_nonneg _) (Nat.cast_nonneg n)
  · rw [mean_squared_error, np_mean]
    simp

theorem exists_ok_of_isOk {ε α : Type} {e : Except ε α} (h : e.isOk = true) :
    ∃ a, e = .ok a := by
  cases e with
  | error e => exact absurd h (by simp [Except.isOk, Except.toBool])
  | ok a => exact ⟨a, rfl⟩

theorem mcIter_ok {N : ℕ} (draws : ℕ → (Fin N → ℚ) × (Fin N → ℚ)) :
    ∀ t : ℕ, (∀ s, s < t →
      (ols (generate_data N (draws s).1 (draws s).2).1
           (generate_data N (draws s).1 (draws s).2).2).isOk = true) →
    ∃ b0 b1, mcIter N draws t = .ok (b0, b1) ∧ b0.length = t ∧ b1.length = t
  | 0, _ => ⟨[], [], rfl, rfl, rfl⟩
  | t + 1, h => by
      obtain ⟨b0, b1, hiter, h0, h1⟩ :=
        mcIter_ok draws t (fun s hs => h s (Nat.lt_succ_of_lt hs))
      obtain ⟨bh, hbh⟩ := exists_ok_of_isOk (h t (Nat.lt_succ_self t))
      refine ⟨b0 ++ [bh 0], b1 ++ [bh 1], ?_, by simp [h0], by simp [h1]⟩
      show (do
        let (c0, c1) ← mcIter N draws t
        let df := generate_data N (draws t).1 (draws t).2
        let beta_hat ← ols df.1 df.2
        Except.ok (c0 ++ [beta_hat 0], c1 ++ [beta_hat 1])) = _
      rw [hiter]
      show (do
        let beta_hat ← ols (generate_data N (draws t).1 (draws t).2).1
          (generate_data N (draws t).1 (draws t).2).2
        Except.ok (b0 ++ [beta_hat 0], b1 ++ [beta_hat 1])) = _
      rw [hbh]
      rfl

theorem ols_isOk {n : ℕ} (x y : Fin n → ℚ)
    (h : detExec ((column_stack_ones x)ᵀ * column_stack_ones x) ≠ 0) :
    (ols x y).isOk = true := by
  rw [ols, np_linalg_inv_of_det_ne _ h]
  rfl

/-- C2: the Monte Carlo simulation is a fixed-iteration loop.  The sample
sizes are exactly `[5, 30, 100, 500]` and the iteration count is exactly
1000; for a sample size `N` in that list, if every iteration's `ols` call
succeeds, the loop terminates with exactly 1000 intercept estimates and 1000
slope estimates, and the `results` association list pairs `N` with that
output of the inner loop. -/
theorem monte_carlo_fixed_iterations (N : ℕ) (hN : N ∈ sample_sizes)
    (draws : ℕ → (Fin N → ℚ) × (Fin N → ℚ))
    (h : ∀ t, t < n_simulations →
      (ols (generate_data N (draws t).1 (draws t).2).1
           (generate_data N (draws t).1 (draws t).2).2).isOk = true) :
    sample_sizes = [5, 30, 100, 500] ∧ n_simulations = 1000 ∧
    (∃ b0 b1, mcLoop N draws = .ok (b0, b1) ∧
      b0.length = 1000 ∧ b1.length = 1000) ∧
    ∀ dr : (M : ℕ) → ℕ → (Fin M → ℚ) × (Fin M → ℚ),
      (N, mcLoop N (dr N)) ∈ mcResults dr := by
  refine ⟨rfl, rfl, ?_, ?_⟩
  · exact mcIter_ok draws n_simulations h
  · intro dr
    exact List.mem_map_of_mem (fun M => (M, mcLoop M (dr M))) hN

theorem monte_carlo_fixed_iterations_witness :
    5 ∈ sample_sizes ∧
    (∀ t, t < n_simulations →
      (ols (generate_data 5 (mcDrawsW 5 t).1 (mcDrawsW 5 t).2).1
           (generate_data 5 (mcDrawsW 5 t).1 (mcDrawsW 5 t).2).2).isOk = true) ∧
    ∃ b0 b1, mcLoop 5 (mcDrawsW 5) = .ok (b0, b1) ∧
      b0.length = 1000 ∧ b1.length = 1000 := by
  have hN : 5 ∈ sample_sizes := by simp [sample_sizes]
  have h : ∀ t, t < n_simulations →
      (ols (generate_data 5 (mcDrawsW 5 t).1 (mcDrawsW 5 t).2).1
           (generate_data 5 (mcDrawsW 5 t).1 (mcDrawsW 5 t).2).2).isOk = true :=
    fun t _ => ols_isOk _ _ (by
      norm_num [detExec, dropIdx, column_stack_ones, mcDrawsW, generate_data,
        Matrix.mul_apply, Matrix.transpose_apply, Fin.sum_univ_succ, Matrix.submatrix])
  exact ⟨hN, h, (monte_carlo_fixed_iterations 5 hN (mcDrawsW 5) h).2.2.1⟩

/-- C4: OLS-by-formula has no edge-case policy of its own.  Both `ols` and
`beta_ols` hand `X'X` straight to the modelled `np.linalg.inv`: when `X'X`
is nonsingular the computation succeeds, and the only possible failure is the
inversion library's own `LinAlgError.singular`, produced exactly when `X'X`
is singular and propagated unmasked. -/
theorem ols_singularity_policy {n m : ℕ} (x y : Fin n → ℚ)
    (educ exper expersq w : Fin m → ℚ) :
    (detExec ((column_stack_ones x)ᵀ * column_stack_ones x) ≠ 0 →
      ∃ b, ols x y = .ok b) ∧
    (ols x y = .error .singular ↔
      detExec ((column_stack_ones x)ᵀ * column_stack_ones x) = 0) ∧
    (detExec ((mroz_design educ exper expersq)ᵀ * mroz_design educ exper expersq) ≠ 0 →
      ∃ b, beta_ols educ exper expersq w = .ok b) ∧
    (beta_ols educ exper expersq w = .error .singular ↔
      detExec ((mroz_design educ exper expersq)ᵀ * mroz_design educ exper expersq) = 0) := by
  refine ⟨fun h => ?_, ?_, fun h => ?_, ?_⟩
  · exact ⟨_, by rw [ols_eq_formula x y, inv_XtX_mul_Xty_of_det_ne _ y h]⟩
  · rw [ols_eq_formula x y]
    exact inv_XtX_mul_Xty_error_iff _ y
  · exact ⟨_, by rw [beta_ols_eq_formula educ exper expersq w,
      inv_XtX_mul_Xty_of_det_ne _ w h]⟩
  · rw [beta_ols_eq_formula educ exper expersq w]
    exact inv_XtX_mul_Xty_error_iff _ w

theorem ols_singularity_policy_witness :
    (detExec ((column_stack_ones xW)ᵀ * column_stack_ones xW) ≠ 0 ∧
      ∃ b, ols xW yW = .ok b) ∧
    ols xSingW yW = .error .singular ∧
    (detExec ((mroz_design educW4 experW4 expersqW4)ᵀ *
        mroz_design educW4 experW4 expersqW4) ≠ 0 ∧
      ∃ b, beta_ols educW4 experW4 expersqW4 experW4 = .ok b) ∧
    beta_ols zeroW1 zeroW1 zeroW1 zeroW1 = .error .singular := by
  have h1 : detExec ((column_stack_ones xW)ᵀ * column_stack_ones xW) ≠ 0 := by
    norm_num [detExec, dropIdx, column_stack_ones, xW, Matrix.mul_apply,
      Matrix.transpose_apply, Fin.sum_univ_succ, Matrix.submatrix]
  have h2 : detExec ((column_stack_ones xSingW)ᵀ * column_stack_ones xSingW) = 0 := by
    norm_num [detExec, dropIdx, column_stack_ones, xSingW, Matrix.mul_apply,
      Matrix.transpose_apply, Fin.sum_univ_succ, Matrix.submatrix]
  have h3 : detExec ((mroz_design educW4 experW4 expersqW4)ᵀ *
      mroz_design educW4 experW4 expersqW4) ≠ 0 := by
    norm_num [detExec, dropIdx, mroz_design, educW4, experW4, expersqW4,
      Matrix.mul_apply, Matrix.transpose_apply, Fin.sum_univ_succ, Matrix.submatrix]
  have h4 : detExec ((mroz_design zeroW1 zeroW1 zeroW1)ᵀ *
      mroz_design zeroW1 zeroW1 zeroW1) = 0 := by
    norm_num [detExec, dropIdx, mroz_design, zeroW1, Matrix.mul_apply,
      Matrix.transpose_apply, Fin.sum_univ_succ, Matrix.submatrix]
  refine ⟨⟨h1, (ols_singularity_policy xW yW educW4 experW4 expersqW4 experW4).1 h1⟩,
    (ols_singularity_policy xSingW yW educW4 experW4 expersqW4 experW4).2.1.mpr h2,
    ⟨h3, (ols_singularity_policy xW yW educW4 experW4 expersqW4 experW4).2.2.1 h3⟩,
    (ols_singularity_policy xW yW zeroW1 zeroW1 zeroW1 zeroW1).2.2.2.mpr h4⟩

/-- C7: the derived arrays are produced by directly slicing the loaded table,
and deriving them leaves the table unchanged.  After the selection cell and
the split cell, the `data` binding is exactly the originally loaded
dataframe — every row, column and cell intact — while `X` is the
column-selection of `data` on the seven named features and `y` is its
`lprice` column. -/
theorem selection_and_split_leave_data_unchanged {n : ℕ} (s0 : SessionState n)
    (shuffled : List (Fin n)) :
    (selectCell s0).data = s0.data ∧
    (splitCell shuffled (selectCell s0)).data = s0.data ∧
    (selectCell s0).X = some (dfSelect s0.data selected_features) ∧
    (selectCell s0).y = dfGetCol s0.data "lprice" ∧
    (splitCell shuffled (selectCell s0)).X = some (dfSelect s0.data selected_features) ∧
    (splitCell shuffled (selectCell s0)).y = dfGetCol s0.data "lprice" ∧
    selected_features = ["year", "age", "rooms", "area", "land", "baths", "dist"] :=
  ⟨rfl, rfl, rfl, rfl, rfl, rfl, rfl⟩

/-- C6 counterexample: the claim "no branch catches, suppresses, or recovers
from a library error; every failure propagates unchanged" is false.  The
repository's `cap drop yhat` statement, run on a dataset without the variable
`yhat`, suppresses the `variable not found` error that the bare `drop`
raises: the failure does not propagate. -/
theorem cap_drop_suppression_counterexample :
    RepoStatement.capDrop "yhat" ∈ repo_statements ∧
    dropVar "yhat" [] = .error (.varNotFound "yhat") ∧
    cap_drop "yhat" [] = .ok [] ∧
    suppressesLibraryError (.capDrop "yhat") = true := by
  refine ⟨?_, ?_, rfl, rfl⟩
  · simp [repo_statements]
  · rw [dropVar, if_neg (by simp)]

/-- C6 (amended): no script or notebook defines a custom error type or raises
its own error, and the only construct that suppresses a library error is the
Stata `cap drop` statement, which suppresses the error from dropping a
non-existent variable (and then never fails); every other statement is a bare
library call, and a `drop` of a missing variable without `cap` fails. -/
theorem error_handling_only_cap_drop :
    (∀ s ∈ repo_statements,
      definesCustomErrorType s = false ∧ raisesOwnError s = false) ∧
    (∀ s ∈ repo_statements, suppressesLibraryError s = true →
      ∃ v, s = RepoStatement.capDrop v) ∧
    (∀ v vars, ∃ vs, cap_drop v vars = .ok vs) ∧
    (∀ v vars, v ∉ vars →
      dropVar v vars = .error (.varNotFound v) ∧ cap_drop v vars = .ok vars) := by
  refine ⟨fun s _ => ⟨rfl, rfl⟩, fun s _ hs => ?_, fun v vars => ?_, fun v vars hv => ?_⟩
  · cases s with
    | capDrop v => exact ⟨v, rfl⟩
    | libraryCall d => exact absurd hs (by simp [suppressesLibraryError])
  · rw [cap_drop, dropVar]
    by_cases h : v ∈ vars
    · exact ⟨vars.erase v, by rw [if_pos h]; rfl⟩
    · exact ⟨vars, by rw [if_neg h]; rfl⟩
  · have hd : dropVar v vars = .error (.varNotFound v) := by rw [dropVar, if_neg hv]
    exact ⟨hd, by rw [cap_drop, hd]; rfl⟩

theorem error_handling_only_cap_drop_witness :
    RepoStatement.capDrop "yhat_oos" ∈ repo_statements ∧
    definesCustomErrorType (.capDrop "yhat_oos") = false ∧
    raisesOwnError (.capDrop "yhat_oos") = false ∧
    suppressesLibraryError (.capDrop "yhat_oos") = true ∧
    (∃ v, RepoStatement.capDrop "yhat_oos" = RepoStatement.capDrop v) ∧
    "ehat" ∉ ["lwage", "educ"] ∧
    dropVar "ehat" ["lwage", "educ"] = .error (.varNotFound "ehat") ∧
    cap_drop "ehat" ["lwage", "educ"] = .ok ["lwage", "educ"] := by
  have hmem : RepoStatement.capDrop "yhat_oos" ∈ repo_statements := by
    simp [repo_statements]
  have hnm : "ehat" ∉ ["lwage", "educ"] := by simp
  obtain ⟨hd, hc⟩ := error_handling_only_cap_drop.2.2.2 "ehat" ["lwage", "educ"] hnm
  exact ⟨hmem, (error_handling_only_cap_drop.1 _ hmem).1,
    (error_handling_only_cap_drop.1 _ hmem).2, rfl,
    error_handling_only_cap_drop.2.1 _ hmem rfl, hnm, hd, hc⟩

/-- C5: the ML notebook is the stated linear sequence — imports, load from a
URL, feature/target derivation, split, preprocessing, LASSO-vs-Random-Forest
pipelines, grids, 5-fold grid-search, refit, evaluation — and its final cell
is the Ridge exercise containing only the `Ridge` import and the placeholder
comment `# Your code here`; no cell of the notebook, and nothing else in the
repository, constructs, tunes, fits or evaluates a Ridge model. -/
theorem ml_notebook_linear_order_and_unfinished_ridge :
    ml_notebook =
      [.importLibs ["numpy", "pandas", "matplotlib.pyplot", "sklearn", "sys"],
       .loadData "http://fmwww.bc.edu/ec-p/data/wooldridge/kielmc.dta",
       .selectFeatures ["year", "age", "rooms", "area", "land", "baths", "dist"] "lprice",
       .trainTestSplit 0.2 123,
       .buildPreprocessor ["age", "area", "land", "dist", "rooms"] ["baths"],
       .buildPipelines [.lasso, .randomForest],
       .defineParamGrids,
       .gridSearchFit [.lasso, .randomForest] 5,
       .setBestParams,
       .fitModels [.lasso, .randomForest],
       .evaluateAndPlot [.lasso, .randomForest],
       .featureImportances .randomForest,
       .inspectCoefficients .lasso,
       .exerciseCell .ridge ["# Your code here"]] ∧
    ml_notebook.getLast? = some (.exerciseCell .ridge ["# Your code here"]) ∧
    (∀ c ∈ ml_notebook, SklearnModel.ridge ∉ modelsUsed c ∧
      SklearnModel.ridgeCV ∉ modelsUsed c) ∧
    SklearnModel.ridge ∉ repo_constructed_models ∧
    SklearnModel.ridgeCV ∉ repo_constructed_models := by
  refine ⟨rfl, rfl, ?_, by simp [repo_constructed_models, ml_notebook, modelsUsed],
    by simp [repo_constructed_models, ml_notebook, modelsUsed]⟩
  intro c hc
  fin_cases hc <;> simp [modelsUsed]

theorem foldl_update_of_not_mem {ι α : Type} [DecidableEq ι] (f : ι → Option α)
    (l : List ι) (acc : ι → Option α) (i : ι) (h : i ∉ l) :
    (l.foldl (fun a j => Function.update a j (f j)) acc) i = acc i := by
  induction l generalizing acc with
  | nil => rfl
  | cons j l ih =>
      rw [List.foldl_cons, ih _ fun hm => h (List.mem_cons_of_mem _ hm)]
      have hij : i ≠ j := fun e => h (e ▸ List.mem_cons_self j l)
      exact Function.update_noteq hij _ _

theorem foldl_update_of_mem {ι α : Type} [DecidableEq ι] (f : ι → Option α)
    (l : List ι) (acc : ι → Option α) (i : ι) (h : i ∈ l) (hn : l.Nodup) :
    (l.foldl (fun a j => Function.update a j (f j)) acc) i = f i := by
  induction l generalizing acc with
  | nil => cases h
  | cons j l ih =>
      rw [List.foldl_cons]
      rcases List.mem_cons.mp h with he | hm
      · subst he
        rw [foldl_update_of_not_mem f l _ i (List.nodup_cons.mp hn).1,
          Function.update_same]
      · exact ih _ hm (List.nodup_cons.mp hn).2

/-- After the loop, the entry for observation `i` is exactly the prediction
stored at iteration `i`. -/
theorem looLoop_eq {n p : ℕ} (y : Fin n → ℚ) (X : Matrix (Fin n) (Fin p) ℚ)
    (i : Fin n) : looLoop y X i = (looPredict y X i).toOption :=
  foldl_update_of_mem _ _ _ i (List.mem_finRange i) (List.nodup_finRange n)

/-- The left-out observation never enters its own estimation sample: the
leave-one-out fit at `i` is unchanged by arbitrary changes to row `i` of the
data. -/
theorem looFit_insensitive_to_own_row {n p : ℕ} (y y' : Fin n → ℚ)
    (X X' : Matrix (Fin n) (Fin p) ℚ) (i : Fin n)
    (hy : ∀ j, j ≠ i → y j = y' j) (hX : ∀ j k, j ≠ i → X j k = X' j k) :
    looFit y X i = looFit y' X' i := by
  have hne : ∀ j : Fin n, ((j : ℕ) != (i : ℕ)) = true → j ≠ i := by
    intro j hj he
    rw [he] at hj
    simp at hj
  have hsX : selectSample (fun j => (j : ℕ) != (i : ℕ)) X =
      selectSample (fun j => (j : ℕ) != (i : ℕ)) X' := by
    ext j k
    show (if ((j : ℕ) != (i : ℕ)) then X j k else 0) =
      (if ((j : ℕ) != (i : ℕ)) then X' j k else 0)
    by_cases hj : ((j : ℕ) != (i : ℕ)) = true
    · rw [if_pos hj, if_pos hj, hX j k (hne j hj)]
    · rw [if_neg hj, if_neg hj]
  have hsy : selectVec (fun j => (j : ℕ) != (i : ℕ)) y =
      selectVec (fun j => (j : ℕ) != (i : ℕ)) y' := by
    funext j
    show (if ((j : ℕ) != (i : ℕ)) then y j else 0) =
      (if ((j : ℕ) != (i : ℕ)) then y' j else 0)
    by_cases hj : ((j : ℕ) != (i : ℕ)) = true
    · rw [if_pos hj, if_pos hj, hy j (hne j hj)]
    · rw [if_neg hj, if_neg hj]
  rw [looFit, looFit, regressFit, regressFit, hsX, hsy]

theorem regressFit_isOk {n p : ℕ} (s : Fin n → Bool) (y : Fin n → ℚ)
    (X : Matrix (Fin n) (Fin p) ℚ)
    (h : detExec ((selectSample s X)ᵀ * selectSample s X) ≠ 0) :
    (regressFit s y X).isOk = true := by
  rw [regressFit, np_linalg_inv_of_det_ne _ h]
  rfl

/-- C9: in the LOO loop of `lab4_task1.do`, the prediction stored for
observation `i` comes from the fit at `i` (which regresses on exactly the
observations other than `i`: the fit is invariant under any change to row
`i`'s data), and when every leave-one-out regression succeeds, `yhat_oos` is
non-missing at every observation after the loop. -/
theorem loo_excludes_own_row_and_fills_all {n : ℕ}
    (lwage educ exper expersq : Fin n → ℚ) :
    (∀ i, yhat_oos lwage educ exper expersq i =
      (looPredict lwage (mroz_design educ exper expersq) i).toOption) ∧
    (∀ (i : Fin n) (lwage' educ' exper' expersq' : Fin n → ℚ),
      (∀ j, j ≠ i → lwage j = lwage' j ∧ educ j = educ' j ∧
        exper j = exper' j ∧ expersq j = expersq' j) →
      looFit lwage (mroz_design educ exper expersq) i =
        looFit lwage' (mroz_design educ' exper' expersq') i) ∧
    ((∀ i, (looFit lwage (mroz_design educ exper expersq) i).isOk = true) →
      ∀ i, (yhat_oos lwage educ exper expersq i).isSome = true) := by
  refine ⟨fun i => looLoop_eq _ _ i, ?_, ?_⟩
  · intro i lwage' educ' exper' expersq' h
    apply looFit_insensitive_to_own_row
    · intro j hj
      exact (h j hj).1
    · intro j k hj
      obtain ⟨-, he, hx, hq⟩ := h j hj
      simp only [mroz_design, Matrix.of_apply]
      split_ifs <;> first | rfl | exact he | exact hx | exact hq
  · intro h i
    rw [yhat_oos, looLoop_eq, looPredict]
    obtain ⟨b, hb⟩ := exists_ok_of_isOk (h i)
    rw [hb]
    rfl

set_option maxHeartbeats 4000000 in
theorem loo_excludes_own_row_and_fills_all_witness :
    (∀ i, (looFit lwageW5 (mroz_design educW5 experW5 expersqW5) i).isOk = true) ∧
    ∀ i, (yhat_oos lwageW5 educW5 experW5 expersqW5 i).isSome = true := by
  have h : ∀ i, (looFit lwageW5 (mroz_design educW5 experW5 expersqW5) i).isOk = true := by
    intro i
    fin_cases i <;>
      exact regressFit_isOk _ _ _ (by
        norm_num [detExec, dropIdx, selectSample, selectVec, mroz_design,
          educW5, experW5, expersqW5, Matrix.mul_apply, Matrix.transpose_apply,
          Fin.sum_univ_succ, Matrix.submatrix, bne_iff_ne, Fin.ext_iff])
  exact ⟨h, (loo_excludes_own_row_and_fills_all lwageW5 educW5 experW5 expersqW5).2.2 h⟩

/-- C8: in `lab4_task2.do` every model is fit and predicted with `lrprice`
as the target, but each out-of-sample error — and hence each reported
MSPE — is `lprice` minus that prediction of `lrprice`: the error variable
subtracts the fitted values from a different variable than the one the
models were fit on.  On the concrete instance where `lprice` and `lrprice`
differ, the stored error differs from the `lrprice`-based residual. -/
theorem task2_error_subtracts_prediction_from_lprice {n p : ℕ}
    (lprice lrprice : Fin n → ℚ) (Xk : Matrix (Fin n) (Fin p) ℚ) :
    (∀ i, ehat_k_oos lprice lrprice Xk i =
      ((looFit lrprice Xk i).map (predictRow Xk i)).toOption.map
        fun yh => lprice i - yh) ∧
    (∀ i b, looFit lrprice Xk i = .ok b →
      ehat_k_oos lprice lrprice Xk i = some (lprice i - predictRow Xk i b)) ∧
    ehat_k_oos lpriceC lrpriceC XC 0 ≠
      (yhat_k_oos lrpriceC XC 0).map fun yh => lrpriceC 0 - yh := by
  refine ⟨fun i => ?_, fun i b hb => ?_, ?_⟩
  · rw [ehat_k_oos, yhat_k_oos, looLoop_eq, looPredict]
  · rw [ehat_k_oos, yhat_k_oos, looLoop_eq, looPredict, hb]
    rfl
  · have h1 : ehat_k_oos lpriceC lrpriceC XC 0 = some (-1) := by
      rw [ehat_k_oos, yhat_k_oos, looLoop_eq, looPredict, looFit, regressFit]
      norm_num [np_linalg_inv, detExec, adjExec, dropIdx, selectSample, selectVec,
        predictRow, Matrix.mulVec, Matrix.dotProduct, Matrix.mul_apply,
        Matrix.transpose_apply, Fin.sum_univ_succ, Matrix.submatrix,
        Matrix.updateRow_apply, Pi.single_apply, XC, lpriceC, lrpriceC,
        bne_iff_ne, Fin.ext_iff, Except.map, Except.toOption]
    have h2 : ((yhat_k_oos lrpriceC XC 0).map fun yh => lrpriceC 0 - yh) = some 0 := by
      rw [yhat_k_oos, looLoop_eq, looPredict, looFit, regressFit]
      norm_num [np_linalg_inv, detExec, adjExec, dropIdx, selectSample, selectVec,
        predictRow, Matrix.mulVec, Matrix.dotProduct, Matrix.mul_apply,
        Matrix.transpose_apply, Fin.sum_univ_succ, Matrix.submatrix,
        Matrix.updateRow_apply, Pi.single_apply, XC, lrpriceC,
        bne_iff_ne, Fin.ext_iff, Except.map, Except.toOption]
    rw [h1, h2]
    simp

theorem task2_error_subtracts_prediction_from_lprice_witness :
    ∃ b, looFit lrpriceC XC 0 = .ok b ∧
      ehat_k_oos lpriceC lrpriceC XC 0 = some (lpriceC 0 - predictRow XC 0 b) := by
  have hok : (looFit lrpriceC XC 0).isOk = true :=
    regressFit_isOk _ _ _ (by
      norm_num [detExec, dropIdx, selectSample, XC, Matrix.mul_apply,
        Matrix.transpose_apply, Fin.sum_univ_succ, Matrix.submatrix,
        bne_iff_ne, Fin.ext_iff])
  obtain ⟨b, hb⟩ := exists_ok_of_isOk hok
  exact ⟨b, hb,
    (task2_error_subtracts_prediction_from_lprice lpriceC lrpriceC XC).2.1 0 b hb⟩

end SGPE
